import Mathlib

/-!
Verification of the retrieval-augmented support pipeline of this
repository: the confidence scorer, the escalation decision, context
assembly, batch ingestion, the session store and the document-count
operation, shallowly embedded from `backend/rag_system.py` and
`backend/main.py`.  Python floats are modelled as exact rationals (`ℚ`),
Python strings as `String`, dicts keyed by strings as association lists.
-/

/-- A retrieval match as built by `RAGSystem.search_similar` (rag_system.py,
lines 134-143): one entry per Pinecone match, with the similarity `score`
always populated from the backend's match (so the `doc.get("score", 0.5)`
default inside `_calculate_confidence` is never taken on pipeline data). -/
structure RetrievedDoc where
  id : String
  score : ℚ
  title : String
  content : String
  category : String
  product : String
deriving DecidableEq, Repr

/-- `RAGSystem._calculate_confidence` (rag_system.py, lines 240-252):
`0.3` for an empty match list, otherwise
`min(avg_score * min(len(docs)/3, 1.0) * 1.2, 1.0)`. -/
def calculate_confidence (docs : List RetrievedDoc) : ℚ :=
  if docs.isEmpty then 3/10
  else
    let scores := docs.map (fun d => d.score)
    let avg_score := scores.sum / (scores.length : ℚ)
    let doc_factor := min ((docs.length : ℚ) / 3) 1
    min (avg_score * doc_factor * (12/10)) 1

/-- The spec's reference definition of `ConfidenceScorer.score` (§4.6),
written from its words: baseline 0.3 on empty input, otherwise
`min(avg * coverage * boost, 1.0)` with `avg` the arithmetic mean of the
match scores, `coverage = min(len(matches)/K, 1.0)`, `K = 3`,
`boost = 1.2`. -/
def confidence_spec (ms : List RetrievedDoc) : ℚ :=
  if ms.isEmpty then 3/10
  else
    let avg := (ms.map (fun m => m.score)).sum / (ms.length : ℚ)
    let coverage := min ((ms.length : ℚ) / 3) 1
    min (avg * coverage * (12/10)) 1

/-- C1: the code's confidence computation agrees with the spec's reference
definition on every match list. -/
theorem C1_confidence_matches_spec (docs : List RetrievedDoc) :
    calculate_confidence docs = confidence_spec docs := by
  unfold calculate_confidence confidence_spec
  cases docs <;> simp

/-- Whether `p` is a leading block of `l` (helper for the substring test
below). -/
def starts_with : List Char → List Char → Bool
  | [], _ => true
  | _ :: _, [] => false
  | a :: p, b :: t => a == b && starts_with p t

/-- Whether `p` occurs contiguously somewhere in `l`: tried at the head,
then recursively in the tail. -/
def occurs_at_some_tail (p : List Char) : List Char → Bool
  | [] => p.isEmpty
  | b :: t => starts_with p (b :: t) || occurs_at_some_tail p t

/-- Python's `phrase in text` on strings: contiguous substring
containment on the character sequences. -/
def str_contains (text phrase : String) : Bool :=
  occurs_at_some_tail phrase.toList text.toList

/-- Python's `str.lower()`, embedded characterwise (the escalation lexicon
and the case distinction it must erase are plain ASCII). -/
def lower_str (s : String) : String :=
  String.mk (s.data.map Char.toLower)

lemma starts_with_eq_true {p l : List Char} :
    starts_with p l = true ↔ p <+: l := by
  induction p generalizing l with
  | nil => simp [starts_with]
  | cons a p ih =>
    cases l with
    | nil => simp [starts_with]
    | cons b t => simp [starts_with, ih, List.cons_prefix_cons]

lemma occurs_at_some_tail_eq_true {p l : List Char} :
    occurs_at_some_tail p l = true ↔ p <:+: l := by
  induction l with
  | nil => simp [occurs_at_some_tail, List.isEmpty_iff]
  | cons b t ih =>
    simp [occurs_at_some_tail, starts_with_eq_true, ih, List.infix_cons_iff]

/-- The escalation-intent lexicon hard-coded in the `chat` endpoint
(main.py, lines 137-141). -/
def escalation_phrases : List String :=
  ["talk to human", "speak to agent", "real person",
   "support team", "escalate", "not helpful", "still need help",
   "manager", "supervisor", "complaint"]

/-- The escalation decision of the `chat` endpoint (main.py, lines
135-142): `confidence_score < 0.5` or any lexicon phrase occurs in
`request.message.lower()`. -/
def needs_escalation (confidence_score : ℚ) (message : String) : Bool :=
  decide (confidence_score < 1/2) ||
    escalation_phrases.any (fun phrase => str_contains (lower_str message) phrase)

/-- C2: the escalation decision is exactly the spec's disjunction — true
iff confidence is below 0.5 or the lowercased message contains some
lexicon phrase as a substring; false only when neither condition holds. -/
theorem C2_escalation_disjunction (c : ℚ) (message : String) :
    needs_escalation c message = true ↔
      c < 1/2 ∨ ∃ phrase ∈ escalation_phrases,
        phrase.toList <:+: (lower_str message).toList := by
  simp [needs_escalation, str_contains, List.any_eq_true,
    occurs_at_some_tail_eq_true]

/-- C9: lexicon matching is plain substring containment on the lowercased
message, with no word-boundary restriction: any message whose lowercased
text contains a lexicon phrase — also inside a longer word — escalates,
whatever the confidence. -/
theorem C9_substring_match (c : ℚ) (message phrase : String)
    (hmem : phrase ∈ escalation_phrases)
    (hsub : phrase.toList <:+: (lower_str message).toList) :
    needs_escalation c message = true := by
  simp only [needs_escalation, Bool.or_eq_true, List.any_eq_true]
  refine Or.inr ⟨phrase, hmem, ?_⟩
  simpa [str_contains, occurs_at_some_tail_eq_true] using hsub

theorem C9_substring_match_witness :
    needs_escalation 1 "My ticket escalated into complaints" = true :=
  C9_substring_match 1 "My ticket escalated into complaints" "escalate"
    (by decide) (occurs_at_some_tail_eq_true.mp (by decide))

/-- Python's `sep.join(parts)`: the parts in order with `sep` between
consecutive parts, the empty string for no parts. -/
def join_with (sep : String) : List String → String
  | [] => ""
  | [part] => part
  | part :: rest => part ++ sep ++ join_with sep rest

/-- One entry of `context_parts` (rag_system.py, line 166):
`f"**{doc['title']}** (Category: {doc['category']})\n{doc['content']}"`. -/
def context_part (doc : RetrievedDoc) : String :=
  "**" ++ doc.title ++ "** (Category: " ++ doc.category ++ ")\n" ++ doc.content

/-- The document-context block of `RAGSystem.get_response` (rag_system.py,
lines 163-168): the formatted parts joined by `"\n\n---\n\n"`, or the
sentinel sentence when no document was retrieved. -/
def build_context (relevant_docs : List RetrievedDoc) : String :=
  let context_parts := relevant_docs.map context_part
  if context_parts.isEmpty then "No specific information found in knowledge base."
  else join_with "\n\n---\n\n" context_parts

lemma length_le_join_with (sep : String) (part : String) (rest : List String) :
    part.length ≤ (join_with sep (part :: rest)).length := by
  cases rest with
  | nil => simp [join_with]
  | cons q t => simp [join_with]; omega

/-- C5: the context block is never the empty string — the empty retrieval
yields the fixed sentinel sentence, and a non-empty retrieval yields the
matches' titles and contents joined in ranked order by the visible
`"\n\n---\n\n"` delimiter. -/
theorem C5_context_nonempty (relevant_docs : List RetrievedDoc) :
    build_context relevant_docs ≠ "" ∧
    (relevant_docs = [] →
      build_context relevant_docs =
        "No specific information found in knowledge base.") ∧
    (relevant_docs ≠ [] →
      build_context relevant_docs =
        join_with "\n\n---\n\n" (relevant_docs.map context_part)) := by
  refine ⟨?_, ?_, ?_⟩
  · cases relevant_docs with
    | nil => simp [build_context]
    | cons d rest =>
      have h2 : 2 ≤ (context_part d).length := by
        simp [context_part]
        have : "**".length = 2 := rfl
        omega
      have hlen : 2 ≤ (build_context (d :: rest)).length := by
        simpa [build_context] using
          le_trans h2 (length_le_join_with "\n\n---\n\n" (context_part d)
            (rest.map context_part))
      intro h
      rw [h] at hlen
      simp at hlen
  · intro h
    simp [h, build_context]
  · intro h
    simp [build_context, List.isEmpty_iff, h]

/-- An input document of `RAGSystem.add_documents_batch` (rag_system.py):
`id`, `title`, `content` mandatory, `category`/`product` optional with
`.get(..., "general")` defaults. -/
structure InputDoc where
  id : String
  title : String
  content : String
  category : Option String
  product : Option String

/-- The metadata stored with each upserted vector (rag_system.py,
lines 101-106). -/
structure VectorMeta where
  title : String
  content : String
  category : String
  product : String
deriving DecidableEq

/-- One vector entry handed to `index.upsert` (rag_system.py,
lines 98-107). -/
structure UpsertVector where
  id : String
  values : List ℚ
  metadata : VectorMeta
deriving DecidableEq

/-- The vector built from one document and its embedding (rag_system.py,
lines 97-107): the document's id, the embedding at the same position, and
metadata with the content truncated to Pinecone's 1000-character budget. -/
def make_vector (doc : InputDoc) (embedding : List ℚ) : UpsertVector :=
  { id := doc.id
    values := embedding
    metadata :=
      { title := doc.title
        content := doc.content.take 1000
        category := doc.category.getD "general"
        product := doc.product.getD "general" } }

/-- Python's `for i in range(0, len(l), bs): yield l[i:i+bs]`: the list cut
into consecutive chunks of `bs` elements, the last possibly shorter. -/
def chunks_of (bs : Nat) (l : List UpsertVector) : List (List UpsertVector) :=
  if l = [] ∨ bs = 0 then []
  else l.take bs :: chunks_of bs (l.drop bs)
termination_by l.length
decreasing_by
  rename_i h
  push_neg at h
  simp only [List.length_drop]
  have := List.length_pos.mpr h.1
  omega

/-- `RAGSystem.add_documents_batch` (rag_system.py, lines 89-114), as the
sequence of upsert calls it issues: each document's `title + " " + content`
is embedded (the batch embedder returns one vector per text, in input
order), one vector is built per document, and the vectors are upserted in
chunks of `batch_size = 100`. -/
def add_documents_batch (embed : String → List ℚ) (documents : List InputDoc) :
    List (List UpsertVector) :=
  let texts := documents.map (fun doc => doc.title ++ " " ++ doc.content)
  let embeddings := texts.map embed
  let vectors := List.zipWith make_vector documents embeddings
  chunks_of 100 vectors

lemma chunks_of_flatten (bs : Nat) (hbs : 0 < bs) (l : List UpsertVector) :
    (chunks_of bs l).flatten = l := by
  rw [chunks_of]
  split
  · rename_i h
    rcases h with h | h
    · simp [h]
    · omega
  · rename_i h
    push_neg at h
    simp [chunks_of_flatten bs hbs (l.drop bs)]
termination_by l.length
decreasing_by
  rename_i h
  push_neg at h
  simp only [List.length_drop]
  have := List.length_pos.mpr h.1
  omega

lemma chunks_of_length_le (bs : Nat) (l : List UpsertVector) :
    ∀ c ∈ chunks_of bs l, c.length ≤ bs := by
  intro c hc
  rw [chunks_of] at hc
  split at hc
  · simp at hc
  · rename_i h
    push_neg at h
    rcases List.mem_cons.mp hc with hc | hc
    · subst hc
      simp
    · exact chunks_of_length_le bs (l.drop bs) c hc
termination_by l.length
decreasing_by
  rename_i h
  push_neg at h
  simp only [List.length_drop]
  have := List.length_pos.mpr h.1
  omega

lemma add_documents_batch_flatten (embed : String → List ℚ)
    (documents : List InputDoc) :
    (add_documents_batch embed documents).flatten =
      documents.map (fun doc =>
        make_vector doc (embed (doc.title ++ " " ++ doc.content))) := by
  unfold add_documents_batch
  rw [chunks_of_flatten 100 (by norm_num)]
  rw [List.map_map, List.zipWith_map_right, List.zipWith_same]
  simp [Function.comp]

/-- C6: batch ingestion of N documents upserts exactly N vectors, in
chunks of at most 100; the i-th vector carries the i-th document's id and
metadata whose content is that document's content truncated to 1000
characters. -/
theorem C6_batch_ingestion (embed : String → List ℚ)
    (documents : List InputDoc) :
    (add_documents_batch embed documents).flatten.length =
      documents.length ∧
    (∀ chunk ∈ add_documents_batch embed documents, chunk.length ≤ 100) ∧
    (∀ i : Nat,
      ((add_documents_batch embed documents).flatten[i]?).map
          (fun v => (v.id, v.metadata.content)) =
        (documents[i]?).map (fun doc => (doc.id, doc.content.take 1000))) := by
  refine ⟨?_, chunks_of_length_le 100 _, ?_⟩
  · rw [add_documents_batch_flatten]
    simp
  · intro i
    rw [add_documents_batch_flatten, List.getElem?_map]
    cases documents[i]? with
    | none => rfl
    | some doc => simp [make_vector]

/-- C3 counterexample: under the cosine metric a match score may be
negative, and the code has no lower clamp; a single match of score `-1`
yields `min((-1) * (1/3) * 1.2, 1) = -2/5`, outside `[0,1]`. -/
theorem C3_counterexample :
    calculate_confidence [⟨"d1", -1, "t", "c", "general", "general"⟩] < 0 := by
  norm_num [calculate_confidence, min_def]

/-- C3 amended: for every non-empty match list whose scores are all
nonnegative, the confidence lies in `[0,1]` (the upper clamp `min(·,1)`
always holds; the lower bound needs nonnegative scores). -/
theorem C3_confidence_bounds (docs : List RetrievedDoc) (hne : docs ≠ [])
    (hpos : ∀ d ∈ docs, 0 ≤ d.score) :
    0 ≤ calculate_confidence docs ∧ calculate_confidence docs ≤ 1 := by
  unfold calculate_confidence
  rw [if_neg (by simpa [List.isEmpty_iff] using hne)]
  refine ⟨le_min ?_ zero_le_one, min_le_right _ _⟩
  have hsum : 0 ≤ (docs.map (fun d => d.score)).sum :=
    List.sum_nonneg (by simpa using hpos)
  have havg : 0 ≤ (docs.map (fun d => d.score)).sum /
      ((docs.map (fun d => d.score)).length : ℚ) :=
    div_nonneg hsum (Nat.cast_nonneg _)
  have hfac : 0 ≤ min ((docs.length : ℚ) / 3) 1 :=
    le_min (div_nonneg (Nat.cast_nonneg _) (by norm_num)) zero_le_one
  exact mul_nonneg (mul_nonneg havg hfac) (by norm_num)

/-- On a non-empty list of at most `K = 3` matches the `min(len/3, 1)`
coverage clamp is inactive and the confidence simplifies to
`min(sum_of_scores * 2/5, 1)`. -/
lemma calculate_confidence_of_le_three (docs : List RetrievedDoc)
    (hne : docs ≠ []) (hlen : docs.length ≤ 3) :
    calculate_confidence docs =
      min ((docs.map (fun d => d.score)).sum * (2/5)) 1 := by
  unfold calculate_confidence
  rw [if_neg (by simpa [List.isEmpty_iff] using hne)]
  have hn : (0 : ℚ) < (docs.length : ℚ) := by
    have := List.length_pos.mpr hne
    exact_mod_cast this
  have h3 : ((docs.length : ℚ) / 3) ≤ 1 := by
    have : (docs.length : ℚ) ≤ 3 := by exact_mod_cast hlen
    linarith
  simp only [List.length_map]
  rw [min_eq_left h3]
  congr 1
  field_simp
  ring

/-- C4 counterexample: appending a match can LOWER the confidence.  First
input: the empty list scores the 0.3 baseline, but after appending one
match of score 1/2 the score is `min(1/2 * 1/3 * 1.2, 1) = 1/5 < 0.3`.
Second input: appending a negative-score match to `[score 1]` drops the
confidence from 2/5 to 0, so the claim also fails for non-empty lists once
negative cosine scores are allowed. -/
theorem C4_counterexample :
    calculate_confidence ([] ++ [⟨"a", 1/2, "t", "c", "general", "general"⟩]) <
      calculate_confidence [] ∧
    calculate_confidence ([⟨"a", 1, "t", "c", "general", "general"⟩] ++
        [⟨"b", -1, "t", "c", "general", "general"⟩]) <
      calculate_confidence [⟨"a", 1, "t", "c", "general", "general"⟩] := by
  constructor <;> norm_num [calculate_confidence, min_def]

/-- C4 amended: for every NON-EMPTY match list of fewer than 3 matches,
appending one match of NONNEGATIVE score never decreases the confidence.
(The original claim fails on the empty list, where the 0.3 baseline can
exceed the one-match score, and fails for negative appended scores.) -/
theorem C4_monotone_in_count (l : List RetrievedDoc) (x : RetrievedDoc)
    (hne : l ≠ []) (hlen : l.length < 3) (hx : 0 ≤ x.score) :
    calculate_confidence l ≤ calculate_confidence (l ++ [x]) := by
  rw [calculate_confidence_of_le_three l hne (by omega),
    calculate_confidence_of_le_three (l ++ [x]) (by simp)
      (by simp; omega)]
  refine min_le_min ?_ le_rfl
  have : (l.map (fun d => d.score)).sum ≤
      ((l ++ [x]).map (fun d => d.score)).sum := by
    rw [List.map_append, List.sum_append]
    simp only [List.map_cons, List.map_nil, List.sum_cons, List.sum_nil,
      add_zero]
    linarith
  exact mul_le_mul_of_nonneg_right this (by norm_num)

theorem C4_monotone_in_count_witness :
    calculate_confidence [⟨"a", 4/5, "t", "c", "general", "general"⟩] ≤
      calculate_confidence ([⟨"a", 4/5, "t", "c", "general", "general"⟩] ++
        [⟨"b", 3/5, "t", "c", "general", "general"⟩]) :=
  C4_monotone_in_count [⟨"a", 4/5, "t", "c", "general", "general"⟩]
    ⟨"b", 3/5, "t", "c", "general", "general"⟩
    (by simp) (by simp) (by norm_num)

theorem C3_confidence_bounds_witness :
    0 ≤ calculate_confidence [⟨"d1", 9/10, "t", "c", "general", "general"⟩] ∧
    calculate_confidence [⟨"d1", 9/10, "t", "c", "general", "general"⟩] ≤ 1 :=
  C3_confidence_bounds [⟨"d1", 9/10, "t", "c", "general", "general"⟩]
    (by simp) (by intro d hd; simp at hd; rw [hd]; norm_num)

/-- A chat message held in a session's history (main.py, lines 53-56). -/
structure SessionMessage where
  role : String
  content : String
deriving DecidableEq

/-- The in-memory session store (main.py, line 103) together with the
fresh-id supply: `uuid_counter` stands for the state of `uuid.uuid4()`,
which the model renders as an injective supply of distinct non-empty
identifier strings. -/
structure SessionState where
  sessions : List (String × List SessionMessage)
  uuid_counter : Nat

/-- The model of `uuid.uuid4()`: the n-th generated identifier, a
non-empty string distinct for distinct n. -/
def uuid4 (n : Nat) : String :=
  String.mk (List.replicate (n + 1) 'u')

lemma uuid4_ne_empty (n : Nat) : uuid4 n ≠ "" := by
  intro h
  have : (uuid4 n).data.length = 0 := by rw [h]; rfl
  simp [uuid4] at this

/-- `get_or_create_session` (main.py, lines 106-113): an id that is truthy
(non-None, non-empty) and present in the store is returned with its stored
history and the store untouched; otherwise a fresh uuid is allocated,
registered with an empty history, and returned. -/
def get_or_create_session (st : SessionState) (session_id : Option String) :
    String × List SessionMessage × SessionState :=
  match session_id with
  | some sid =>
    if sid ≠ "" ∧ ((st.sessions.lookup sid).isSome : Bool) then
      (sid, (st.sessions.lookup sid).getD [], st)
    else
      (uuid4 st.uuid_counter, [],
        ⟨st.sessions ++ [(uuid4 st.uuid_counter, [])], st.uuid_counter + 1⟩)
  | none =>
    (uuid4 st.uuid_counter, [],
      ⟨st.sessions ++ [(uuid4 st.uuid_counter, [])], st.uuid_counter + 1⟩)

lemma lookup_eq_none_of_not_mem_keys {β : Type}
    (l : List (String × β)) (k : String) (h : k ∉ l.map Prod.fst) :
    l.lookup k = none := by
  induction l with
  | nil => rfl
  | cons p t ih =>
    obtain ⟨a, b⟩ := p
    simp only [List.map_cons, List.mem_cons] at h
    push_neg at h
    rw [List.lookup, show (k == a) = false from beq_eq_false_iff_ne.mpr h.1]
    exact ih h.2

lemma mem_keys_of_lookup_eq_some {β : Type}
    {l : List (String × β)} {k : String} {v : β}
    (h : l.lookup k = some v) : k ∈ l.map Prod.fst := by
  induction l with
  | nil => simp [List.lookup] at h
  | cons p t ih =>
    obtain ⟨a, b⟩ := p
    rw [List.lookup] at h
    by_cases hk : k = a
    · simp [hk]
    · rw [show (k == a) = false from beq_eq_false_iff_ne.mpr hk] at h
      simp [ih h]

lemma lookup_append_single_ne {β : Type}
    (l : List (String × β)) (k i : String) (v : β) (h : k ≠ i) :
    (l ++ [(i, v)]).lookup k = l.lookup k := by
  induction l with
  | nil =>
    simp [List.lookup, beq_eq_false_iff_ne.mpr h]
  | cons p t ih =>
    obtain ⟨a, b⟩ := p
    rw [List.cons_append, List.lookup, List.lookup]
    cases k == a <;> simp [ih]

lemma lookup_append_single_self {β : Type}
    (l : List (String × β)) (i : String) (v : β)
    (h : i ∉ l.map Prod.fst) :
    (l ++ [(i, v)]).lookup i = some v := by
  induction l with
  | nil => simp [List.lookup]
  | cons p t ih =>
    obtain ⟨a, b⟩ := p
    simp only [List.map_cons, List.mem_cons] at h
    push_neg at h
    rw [List.cons_append, List.lookup,
      show (i == a) = false from beq_eq_false_iff_ne.mpr h.1]
    exact ih h.2

/-- C7: calling without a session id allocates a fresh id that was never
issued, with an empty history, registers it, and leaves every other
session's lookup unchanged; calling with an id already in the store
returns that id, its stored history, and the unchanged store.  The two
hypotheses say the state is one the store can reach: the next generated
uuid is new, and no stored key is the empty string (keys are issued
uuids). -/
theorem C7_get_or_create_session (st : SessionState)
    (hfresh : uuid4 st.uuid_counter ∉ st.sessions.map Prod.fst)
    (hkeys : "" ∉ st.sessions.map Prod.fst) :
    ((get_or_create_session st none).1 ∉ st.sessions.map Prod.fst ∧
     (get_or_create_session st none).2.1 = [] ∧
     (get_or_create_session st none).2.2.sessions.lookup
        (get_or_create_session st none).1 = some [] ∧
     (∀ k, k ≠ (get_or_create_session st none).1 →
       (get_or_create_session st none).2.2.sessions.lookup k =
         st.sessions.lookup k)) ∧
    (∀ sid hist, st.sessions.lookup sid = some hist →
      get_or_create_session st (some sid) = (sid, hist, st)) := by
  constructor
  · refine ⟨hfresh, rfl, ?_, ?_⟩
    · exact lookup_append_single_self st.sessions _ [] hfresh
    · intro k hk
      exact lookup_append_single_ne st.sessions k _ [] hk
  · intro sid hist hsid
    have hmem : sid ∈ st.sessions.map Prod.fst := mem_keys_of_lookup_eq_some hsid
    have hne : sid ≠ "" := fun h => hkeys (h ▸ hmem)
    simp only [get_or_create_session]
    rw [if_pos ⟨hne, by simp [hsid]⟩]
    simp [hsid]

theorem C7_get_or_create_session_witness :
    (((get_or_create_session ⟨[(uuid4 0, [⟨"user", "hi"⟩])], 1⟩ none).1 ∉
        ([(uuid4 0, [(⟨"user", "hi"⟩ : SessionMessage)])].map Prod.fst) ∧
      (get_or_create_session ⟨[(uuid4 0, [⟨"user", "hi"⟩])], 1⟩ none).2.1 = [] ∧
      (get_or_create_session ⟨[(uuid4 0, [⟨"user", "hi"⟩])], 1⟩
          none).2.2.sessions.lookup
        (get_or_create_session ⟨[(uuid4 0, [⟨"user", "hi"⟩])], 1⟩ none).1 =
          some [] ∧
      (∀ k, k ≠ (get_or_create_session ⟨[(uuid4 0, [⟨"user", "hi"⟩])], 1⟩ none).1 →
        (get_or_create_session ⟨[(uuid4 0, [⟨"user", "hi"⟩])], 1⟩
            none).2.2.sessions.lookup k =
          ([(uuid4 0, [(⟨"user", "hi"⟩ : SessionMessage)])]).lookup k)) ∧
     (∀ sid hist,
        ([(uuid4 0, [(⟨"user", "hi"⟩ : SessionMessage)])]).lookup sid = some hist →
        get_or_create_session ⟨[(uuid4 0, [⟨"user", "hi"⟩])], 1⟩ (some sid) =
          (sid, hist, ⟨[(uuid4 0, [⟨"user", "hi"⟩])], 1⟩))) :=
  C7_get_or_create_session ⟨[(uuid4 0, [⟨"user", "hi"⟩])], 1⟩
    (by decide) (by decide)

/-- C10: an unknown (but non-None) session id is never adopted — the store
allocates and registers a fresh id with empty history instead, and no
session keyed by the supplied id is created.  `hcollision` excludes a
uuid collision between the supplied id and the freshly generated one. -/
theorem C10_unknown_id_not_adopted (st : SessionState) (sid : String)
    (habsent : st.sessions.lookup sid = none)
    (hfresh : uuid4 st.uuid_counter ∉ st.sessions.map Prod.fst)
    (hcollision : sid ≠ uuid4 st.uuid_counter) :
    (get_or_create_session st (some sid)).1 ≠ sid ∧
    (get_or_create_session st (some sid)).1 ∉ st.sessions.map Prod.fst ∧
    (get_or_create_session st (some sid)).2.1 = [] ∧
    (get_or_create_session st (some sid)).2.2.sessions.lookup
      (get_or_create_session st (some sid)).1 = some [] ∧
    (get_or_create_session st (some sid)).2.2.sessions.lookup sid = none := by
  have hcond : (get_or_create_session st (some sid)) =
      (uuid4 st.uuid_counter, [],
        ⟨st.sessions ++ [(uuid4 st.uuid_counter, [])], st.uuid_counter + 1⟩) := by
    simp only [get_or_create_session]
    rw [if_neg]
    intro h
    rw [habsent] at h
    exact absurd h.2 (by simp)
  rw [hcond]
  refine ⟨fun h => hcollision h.symm, hfresh, rfl, ?_, ?_⟩
  · exact lookup_append_single_self st.sessions _ [] hfresh
  · rw [lookup_append_single_ne st.sessions sid _ [] hcollision]
    exact habsent

theorem C10_unknown_id_not_adopted_witness :
    (get_or_create_session ⟨[], 0⟩ (some "ghost")).1 ≠ "ghost" ∧
    (get_or_create_session ⟨[], 0⟩ (some "ghost")).1 ∉
      (([] : List (String × List SessionMessage)).map Prod.fst) ∧
    (get_or_create_session ⟨[], 0⟩ (some "ghost")).2.1 = [] ∧
    (get_or_create_session ⟨[], 0⟩ (some "ghost")).2.2.sessions.lookup
      (get_or_create_session ⟨[], 0⟩ (some "ghost")).1 = some [] ∧
    (get_or_create_session ⟨[], 0⟩ (some "ghost")).2.2.sessions.lookup
      "ghost" = none :=
  C10_unknown_id_not_adopted ⟨[], 0⟩ "ghost" (by decide) (by decide) (by decide)

/-- `RAGSystem.get_document_count` (rag_system.py, lines 254-260): the
backend call `index.describe_index_stats()` either yields a vector count
or fails; the bare `except` maps every failure to 0. -/
def get_document_count {ε : Type} (describe_index_stats : Except ε Nat) : Nat :=
  match describe_index_stats with
  | Except.ok total_vector_count => total_vector_count
  | Except.error _ => 0

/-- C8: the document count is total — for every backend behaviour it
returns a number (it is a function into `Nat`, so it cannot raise), the
count on success, and exactly 0 on every failure. -/
theorem C8_count_never_raises (ε : Type) :
    (∀ e : ε, get_document_count (Except.error e) = 0) ∧
    (∀ n : Nat, get_document_count (Except.ok n : Except ε Nat) = n) :=
  ⟨fun _ => rfl, fun _ => rfl⟩
